import Mathlib

/-!
Verification development for the log-monitor ingestion pipeline.

The definitions below are a shallow embedding of the TypeScript sources:
* `parseLogLine` and the three registered line patterns embed
  `src/client/src/lib/log-parser.ts` (`TOMCAT_PATTERNS`, `parseLogLine`);
  JavaScript regexes are embedded as recursive matchers over `List Char`
  with greedy-plus-backtracking semantics where the pattern needs it.
* `MemStorage` and its operations embed the `MemStorage` class from the
  server storage module.
* `handleUpload`, `stepLine` embed the `/api/upload` handler in
  `src/server/routes.ts`; the pre-loop byte decoding (read, chardet,
  iconv) is represented by an `Except` parameter, and the post-loop
  temp-file unlink by a success flag, since both are fallible I/O.
* `broadcast` embeds the WebSocket fan-out in `src/server/routes.ts`;
  per the `ws` library contract, `send` without a callback on a closed
  socket silently drops the frame instead of raising, which `wsSend`
  models as a Boolean delivery result.
-/

namespace LogMon

/-- The JavaScript whitespace class used both by `String.prototype.trim`
and by the regex class `\s` (WhiteSpace plus LineTerminator). -/
def jsWS (c : Char) : Bool :=
  c.toNat == 0x20 || c.toNat == 0x09 || c.toNat == 0x0A || c.toNat == 0x0D ||
  c.toNat == 0x0B || c.toNat == 0x0C || c.toNat == 0xA0 || c.toNat == 0x1680 ||
  (Nat.ble 0x2000 c.toNat && Nat.ble c.toNat 0x200A) ||
  c.toNat == 0x2028 || c.toNat == 0x2029 || c.toNat == 0x202F ||
  c.toNat == 0x205F || c.toNat == 0x3000 || c.toNat == 0xFEFF

/-- `String.prototype.trim`: strip leading and trailing JS whitespace. -/
def jsTrim (l : List Char) : List Char :=
  ((l.dropWhile jsWS).reverse.dropWhile jsWS).reverse

/-- The regex class `[\w.-]` used for the logger group of the locale
pattern: `\w` is `[A-Za-z0-9_]`. -/
def wordDotDash (c : Char) : Bool :=
  c.isAlphanum || c == '_' || c == '.' || c == '-'

/-- The regex `.` metacharacter: any character except a line terminator. -/
def dotChar (c : Char) : Bool :=
  !(c.toNat == 0x0A || c.toNat == 0x0D || c.toNat == 0x2028 || c.toNat == 0x2029)

/-- The four-value level enum of the schema (`log_level`). -/
inductive LogLevel
  | ERROR
  | WARN
  | INFO
  | DEBUG
deriving DecidableEq

/-- A point in time as the source manipulates it: either
`new Date(someString)` applied to a string assembled from the matched
groups, or `new Date()` (the ingestion wall-clock instant). -/
inductive Timestamp
  | fromString : List Char → Timestamp
  | ingestionTime : Timestamp
deriving DecidableEq

/-- `ParsedLogEntry` from `log-parser.ts`. -/
structure ParsedLogEntry where
  lineNumber : Nat
  timestamp : Timestamp
  level : LogLevel
  logger : Option (List Char)
  message : List Char
  stackTrace : Option (List Char)
deriving DecidableEq

/-- Consume exactly `n` characters matching `\d`. -/
def chompDigits : Nat → List Char → Option (List Char)
  | 0, l => some l
  | _ + 1, [] => none
  | n + 1, c :: r => if c.isDigit then chompDigits n r else none

/-- Consume one literal character. -/
def chompChar (a : Char) : List Char → Option (List Char)
  | [] => none
  | c :: r => if c == a then some r else none

/-- Consume a literal character sequence. -/
def chompSeq : List Char → List Char → Option (List Char)
  | [], l => some l
  | _ :: _, [] => none
  | p :: ps, c :: r => if c == p then chompSeq ps r else none

/-- Consume exactly one `\s` character. -/
def chompOneWS : List Char → Option (List Char)
  | [] => none
  | c :: r => if jsWS c then some r else none

/-- Length of the maximal leading run of `\s` characters. -/
def wsLen (l : List Char) : Nat := (l.takeWhile jsWS).length

/-- Drop the maximal leading run of `\s` characters. -/
def dropWS (l : List Char) : List Char := l.drop (wsLen l)

/-- `\s+` immediately followed by a non-whitespace literal: the greedy
maximal run is the only viable split, so consume it (requiring at least
one character). -/
def chompWSplus (l : List Char) : Option (List Char) :=
  if wsLen l == 0 then none else some (dropWS l)

/-- Attempt the final group `(.+)$` after exactly `k` consumed
whitespace characters. -/
def msgFrom (l : List Char) (k : Nat) : Option (List Char) :=
  let rest := l.drop k
  if !rest.isEmpty && rest.all dotChar then some rest else none

/-- Greedy backtracking over the whitespace run: try `k, k-1, ..., 1`. -/
def msgSearch (l : List Char) : Nat → Option (List Char)
  | 0 => none
  | k + 1 =>
    match msgFrom l (k + 1) with
    | some m => some m
    | none => msgSearch l k

/-- The regex tail `\s+(.+)$` with greedy backtracking, returning the
captured group. -/
def tailMsgPlus (l : List Char) : Option (List Char) :=
  msgSearch l (wsLen l)

/-- The regex tail `\s*(.+)$` with greedy backtracking. -/
def tailMsgStar (l : List Char) : Option (List Char) :=
  match msgSearch l (wsLen l) with
  | some m => some m
  | none => msgFrom l 0

/-- The alternation `(ERROR|WARN|INFO|DEBUG)`; the four literals are
mutually prefix-free, so first-match order does not matter. The source
then applies `.toUpperCase()`, which is the identity on these literals. -/
def levelTok (l : List Char) : Option (LogLevel × List Char) :=
  match chompSeq ("ERROR".toList) l with
  | some r => some (LogLevel.ERROR, r)
  | none =>
    match chompSeq ("WARN".toList) l with
    | some r => some (LogLevel.WARN, r)
    | none =>
      match chompSeq ("INFO".toList) l with
      | some r => some (LogLevel.INFO, r)
      | none =>
        match chompSeq ("DEBUG".toList) l with
        | some r => some (LogLevel.DEBUG, r)
        | none => none

/-- Run a sequence of regex atoms left to right, each consuming a prefix;
fail as soon as one fails. -/
def runSteps (steps : List (List Char → Option (List Char)))
    (l : List Char) : Option (List Char) :=
  match steps with
  | [] => some l
  | f :: rest =>
    match f l with
    | some r => runSteps rest r
    | none => none

/-- The atoms of the timestamp group of `TOMCAT_PATTERNS[0]`:
`\d{4}-\d{2}-\d{2}\s\d{2}:\d{2}:\d{2},\d{3}`. -/
def ts0Steps : List (List Char → Option (List Char)) :=
  [chompDigits 4, chompChar '-', chompDigits 2, chompChar '-',
   chompDigits 2, chompOneWS, chompDigits 2, chompChar ':',
   chompDigits 2, chompChar ':', chompDigits 2, chompChar ',',
   chompDigits 3]

/-- The timestamp group of `TOMCAT_PATTERNS[0]`, returning the captured
group (the consumed prefix) and the rest. -/
def matchTs0 (l : List Char) : Option (List Char × List Char) :=
  match runSteps ts0Steps l with
  | some r => some (l.take (l.length - r.length), r)
  | none => none

/-- `TOMCAT_PATTERNS[0]`:
`^(\d{4}-\d{2}-\d{2}\s\d{2}:\d{2}:\d{2},\d{3})\s+main\s+(ERROR|WARN|INFO|DEBUG)\s+(.+)$`. -/
def matchP0 (l : List Char) : Option (List Char × LogLevel × List Char) :=
  match matchTs0 l with
  | none => none
  | some (ts, r) =>
    match runSteps [chompWSplus, chompSeq ("main".toList), chompWSplus] r with
    | none => none
    | some r =>
      match levelTok r with
      | none => none
      | some (lv, r) =>
        match tailMsgPlus r with
        | none => none
        | some msg => some (ts, lv, msg)

/-- The atoms of the timestamp group of `TOMCAT_PATTERNS[1]`:
`\d{2}\.\d{2}\.\d{2}\s\d{2}:\d{2}:\d{2}:\d{3}`. -/
def ts1Steps : List (List Char → Option (List Char)) :=
  [chompDigits 2, chompChar '.', chompDigits 2, chompChar '.',
   chompDigits 2, chompOneWS, chompDigits 2, chompChar ':',
   chompDigits 2, chompChar ':', chompDigits 2, chompChar ':',
   chompDigits 3]

/-- The timestamp group of `TOMCAT_PATTERNS[1]`. -/
def matchTs1 (l : List Char) : Option (List Char × List Char) :=
  match runSteps ts1Steps l with
  | some r => some (l.take (l.length - r.length), r)
  | none => none

/-- After a candidate logger group: `\s*-\s*(.+)$`. -/
def afterLoggerTail (l : List Char) : Option (List Char) :=
  match chompChar '-' (dropWS l) with
  | some r => tailMsgStar r
  | none => none

/-- Greedy backtracking for `([\w.-]+)\s*-\s*(.+)$`: try the longest
run of `[\w.-]` characters first, shrinking while the tail fails (the
run may contain `-`, so shorter splits can succeed where the maximal
one does not). -/
def loggerTry (l : List Char) : Nat → Option (List Char × List Char)
  | 0 => none
  | k + 1 =>
    match afterLoggerTail (l.drop (k + 1)) with
    | some msg => some (l.take (k + 1), msg)
    | none => loggerTry l k

/-- The logger-and-message tail of `TOMCAT_PATTERNS[1]`. -/
def loggerGrab (l : List Char) : Option (List Char × List Char) :=
  loggerTry l ((l.takeWhile wordDotDash).length)

/-- `TOMCAT_PATTERNS[1]`:
`^(\d{2}\.\d{2}\.\d{2}\s\d{2}:\d{2}:\d{2}:\d{3})\s*-\s*(ERROR|WARN|INFO|DEBUG)\s*-\s*([\w.-]+)\s*-\s*(.+)$`. -/
def matchP1 (l : List Char) :
    Option (List Char × LogLevel × List Char × List Char) :=
  match matchTs1 l with
  | none => none
  | some (ts, r) =>
    match chompChar '-' (dropWS r) with
    | none => none
    | some r =>
      match levelTok (dropWS r) with
      | none => none
      | some (lv, r) =>
        match chompChar '-' (dropWS r) with
        | none => none
        | some r =>
          match loggerGrab (dropWS r) with
          | none => none
          | some (lg, msg) => some (ts, lv, lg, msg)

/-- Does `p` occur at the head of `l`? -/
def startsSeq (p l : List Char) : Bool := (chompSeq p l).isSome

/-- Does `p` occur as a contiguous subsequence of `l`? -/
def containsSeq (p : List Char) : List Char → Bool
  | [] => startsSeq p []
  | c :: r => startsSeq p (c :: r) || containsSeq p r

/-- First alternative of the stack-trace group: `at\s+.+`. -/
def altA (l : List Char) : Bool :=
  match chompSeq ("at".toList) l with
  | some r => (tailMsgPlus r).isSome
  | none => false

/-- Second alternative: `Caused\s+by:.+`. -/
def altB (l : List Char) : Bool :=
  match chompSeq ("Caused".toList) l with
  | some r =>
    match chompWSplus r with
    | some r2 =>
      match chompSeq ("by:".toList) r2 with
      | some r3 => !r3.isEmpty && r3.all dotChar
      | none => false
    | none => false
  | none => false

/-- Third alternative: `\.{3}\s+\d+\s+more` (anchored at the end). -/
def altC (l : List Char) : Bool :=
  match chompSeq ("...".toList) l with
  | some r =>
    match chompWSplus r with
    | some r2 =>
      let dn := (r2.takeWhile Char.isDigit).length
      if dn == 0 then false
      else
        match chompWSplus (r2.drop dn) with
        | some r3 =>
          match chompSeq ("more".toList) r3 with
          | some r4 => r4.isEmpty
          | none => false
        | none => false
    | none => false
  | none => false

/-- Fourth alternative `\s+.*Exception.*`, backtracking over how much of
the leading whitespace run the `\s+` consumes. -/
def dSearch (l : List Char) : Nat → Bool
  | 0 => false
  | k + 1 =>
    ((l.drop (k + 1)).all dotChar &&
      containsSeq ("Exception".toList) (l.drop (k + 1))) || dSearch l k

/-- Fourth alternative of the stack-trace group. -/
def altD (l : List Char) : Bool := dSearch l (wsLen l)

/-- The alternation body of `TOMCAT_PATTERNS[2]`. -/
def altAny (l : List Char) : Bool := altA l || altB l || altC l || altD l

/-- Backtracking over the mandatory leading `\s+` of `TOMCAT_PATTERNS[2]`. -/
def p2Search (l : List Char) : Nat → Bool
  | 0 => false
  | k + 1 => altAny (l.drop (k + 1)) || p2Search l k

/-- `TOMCAT_PATTERNS[2]`:
`^\s+(at\s+.+|Caused\s+by:.+|\.{3}\s+\d+\s+more|\s+.*Exception.*)$` —
only its success is observed by the source, so the matcher is Boolean. -/
def matchP2 (l : List Char) : Bool := p2Search l (wsLen l)

/-- `String.prototype.replace` with a one-character string pattern:
replace the first occurrence only. -/
def replaceFirst (a b : Char) : List Char → List Char
  | [] => []
  | c :: r => if c == a then b :: r else c :: replaceFirst a b r

/-- The timestamp string rebuilt in the locale branch of `parseLogLine`:
`` `20${m.slice(6,8)}-${m.slice(3,5)}-${m.slice(0,2)} ${m.slice(9)}` ``. -/
def localeTs (ts : List Char) : List Char :=
  ('2' :: '0' :: ((ts.drop 6).take 2)) ++ ('-' :: ((ts.drop 3).take 2)) ++
    ('-' :: (ts.take 2)) ++ (' ' :: (ts.drop 9))

/-- `parseLogLine` from `src/client/src/lib/log-parser.ts`. The loop over
`TOMCAT_PATTERNS` returns only on a 3-group or 4-group match, so a
pattern-2 match inside the loop is a no-op; the explicit stack-trace
check afterwards is `matchP2`. -/
def parseLogLine (line : List Char) (lineNumber : Nat) :
    Except (List Char) ParsedLogEntry :=
  if jsTrim line = [] then Except.error ("Empty line".toList)
  else
    match matchP0 (jsTrim line) with
    | some (ts, lv, msg) =>
      Except.ok
        { lineNumber := lineNumber
          timestamp := Timestamp.fromString (replaceFirst ',' '.' ts)
          level := lv
          logger := some ("main".toList)
          message := msg
          stackTrace := none }
    | none =>
      match matchP1 (jsTrim line) with
      | some (ts, lv, lg, msg) =>
        Except.ok
          { lineNumber := lineNumber
            timestamp := Timestamp.fromString (localeTs ts)
            level := lv
            logger := some lg
            message := msg
            stackTrace := none }
      | none =>
        if matchP2 (jsTrim line) then
          Except.ok
            { lineNumber := lineNumber
              timestamp := Timestamp.ingestionTime
              level := LogLevel.DEBUG
              logger := none
              message := []
              stackTrace := some (jsTrim line) }
        else
          Except.ok
            { lineNumber := lineNumber
              timestamp := Timestamp.ingestionTime
              level := LogLevel.INFO
              logger := none
              message := jsTrim line
              stackTrace := none }

/-- `LogEntry` as stored by `MemStorage` (schema `log_entries`; `fileName`
holds the owning file's id, as the upload handler passes `logFile.id`). -/
structure LogEntry where
  id : List Char
  lineNumber : Nat
  timestamp : Timestamp
  level : LogLevel
  logger : Option (List Char)
  message : List Char
  stackTrace : Option (List Char)
  fileName : List Char
  createdAt : Timestamp
deriving DecidableEq

/-- `InsertLogEntry`: what callers hand to `createLogEntry`. A caller may
even carry an `id` field; the spread-then-override in the source replaces
it. -/
structure InsertLogEntry where
  id : Option (List Char)
  lineNumber : Nat
  timestamp : Timestamp
  level : LogLevel
  logger : Option (List Char)
  message : List Char
  stackTrace : Option (List Char)
  fileName : List Char
deriving DecidableEq

/-- `LogFile` metadata (schema `log_files`). -/
structure LogFile where
  id : List Char
  fileName : List Char
  fileSize : Nat
  status : List Char
  uploadedAt : Timestamp
deriving DecidableEq

/-- The in-memory store: `logEntries` models the `Map` of per-file entry
arrays with the `get(f) || []` default, `logFiles` the file-metadata
`Map`. (The filter-settings map is not touched by any claim.) -/
structure MemStorage where
  logEntries : List Char → List LogEntry
  logFiles : List Char → Option LogFile

/-- A store with no files and no entries. -/
def emptyStorage : MemStorage :=
  { logEntries := fun _ => [], logFiles := fun _ => none }

/-- The JavaScript `v || null` normalization applied to the optional
string fields: `undefined` and the empty string both become `null`. -/
def jsOrNull (x : Option (List Char)) : Option (List Char) :=
  match x with
  | some s => if s = [] then none else some s
  | none => none

/-- `MemStorage.getLogEntries`: `entries.slice(offset, offset + limit)`. -/
def getLogEntries (s : MemStorage) (fileName : List Char)
    (limit offset : Nat) : List LogEntry :=
  ((s.logEntries fileName).drop offset).take limit

/-- `MemStorage.createLogEntry`; `freshId` stands for the value produced
by `randomUUID()` at this call. -/
def createLogEntry (s : MemStorage) (e : InsertLogEntry)
    (freshId : List Char) : LogEntry × MemStorage :=
  let entry : LogEntry :=
    { id := freshId
      lineNumber := e.lineNumber
      timestamp := e.timestamp
      level := e.level
      logger := jsOrNull e.logger
      message := e.message
      stackTrace := jsOrNull e.stackTrace
      fileName := e.fileName
      createdAt := Timestamp.ingestionTime }
  (entry,
    { s with
      logEntries := fun f =>
        if f = e.fileName then s.logEntries f ++ [entry]
        else s.logEntries f })

/-- `MemStorage.clearLogEntries`: `this.logEntries.set(fileName, [])`. -/
def clearLogEntries (s : MemStorage) (fileName : List Char) : MemStorage :=
  { s with
    logEntries := fun f => if f = fileName then [] else s.logEntries f }

/-- The statistics record returned by `getLogStatistics`. -/
structure LogStats where
  total : Nat
  errors : Nat
  warnings : Nat
deriving DecidableEq

/-- `MemStorage.getLogStatistics`: a full scan filtering on `level`. -/
def getLogStatistics (s : MemStorage) (fileName : List Char) : LogStats :=
  { total := (s.logEntries fileName).length
    errors :=
      ((s.logEntries fileName).filter
        (fun e => e.level == LogLevel.ERROR)).length
    warnings :=
      ((s.logEntries fileName).filter
        (fun e => e.level == LogLevel.WARN)).length }

/-- `MemStorage.getLogFile`. -/
def getLogFile (s : MemStorage) (id : List Char) : Option LogFile :=
  s.logFiles id

/-- `MemStorage.createLogFile`; `status` is optional and defaults through
`insertFile.status || "active"`. -/
def createLogFile (s : MemStorage) (freshId fileName : List Char)
    (fileSize : Nat) (status : Option (List Char)) : LogFile × MemStorage :=
  let st :=
    match status with
    | some v => if v = [] then "active".toList else v
    | none => "active".toList
  let file : LogFile :=
    { id := freshId, fileName := fileName, fileSize := fileSize,
      status := st, uploadedAt := Timestamp.ingestionTime }
  (file,
    { s with
      logFiles := fun i => if i = freshId then some file else s.logFiles i })

/-- `MemStorage.updateLogFileStatus`: update only when the file exists. -/
def updateLogFileStatus (s : MemStorage) (id status : List Char) :
    MemStorage :=
  match s.logFiles id with
  | some f =>
    { s with
      logFiles := fun i =>
        if i = id then some { f with status := status } else s.logFiles i }
  | none => s

/-- Status of a stored file, if present. -/
def fileStatus (s : MemStorage) (fid : List Char) : Option (List Char) :=
  (s.logFiles fid).map LogFile.status

/-- A live WebSocket connection as the broadcast loop sees it:
`subscribedFile` is the per-connection field set by the subscribe
message; `isOpen` is the socket state at send time. -/
structure WsClient where
  cid : Nat
  subscribedFile : Option (List Char)
  isOpen : Bool
deriving DecidableEq

/-- `client.send(...)` with no callback (as in `broadcast`): the `ws`
library delivers on an open socket and silently drops the frame on a
closed one — it neither throws nor emits, so the loop always continues. -/
def wsSend (c : WsClient) : Bool := c.isOpen

/-- The `broadcast` helper of `registerRoutes`: iterate all connected
clients, sending only to those whose `subscribedFile` equals the file id.
Each element of the result records one attempted recipient and whether
the frame was actually delivered. -/
def broadcast (clients : List WsClient) (fileName : List Char)
    (_entry : LogEntry) : List (WsClient × Bool) :=
  clients.filterMap
    (fun c =>
      if c.subscribedFile == some fileName then some (c, wsSend c) else none)

/-- `fileContent.split("\n")`. -/
def splitNlAux (cur : List Char) : List Char → List (List Char)
  | [] => [cur.reverse]
  | c :: r =>
    if c == '\n' then cur.reverse :: splitNlAux [] r
    else splitNlAux (c :: cur) r

/-- Split decoded text on line-feed boundaries. -/
def splitNl (l : List Char) : List (List Char) := splitNlAux [] l

/-- Loop state of the `/api/upload` per-line loop: the store, the running
1-based line counter (incremented only for non-blank lines), the error
counter, and how many entries have been created (to index fresh UUIDs). -/
structure IngestAcc where
  st : MemStorage
  lineNumber : Nat
  errorCount : Nat
  created : Nat

/-- `{ ...parsed, fileName: logFile.id }` handed to `createLogEntry`. -/
def insertOfParsed (p : ParsedLogEntry) (fid : List Char) : InsertLogEntry :=
  { id := none, lineNumber := p.lineNumber, timestamp := p.timestamp,
    level := p.level, logger := p.logger, message := p.message,
    stackTrace := p.stackTrace, fileName := fid }

/-- One iteration of the `/api/upload` loop in `src/server/routes.ts`:
blank lines are skipped entirely; a parsed line is stored (and broadcast);
if `parseLogLine` throws, the catch branch stores a fallback INFO entry
with the raw line as message and counts the error. -/
def stepLine (gen : Nat → List Char) (fid : List Char) (acc : IngestAcc)
    (line : List Char) : IngestAcc :=
  if jsTrim line = [] then acc
  else
    match parseLogLine line acc.lineNumber with
    | Except.ok p =>
      let r := createLogEntry acc.st (insertOfParsed p fid) (gen acc.created)
      { st := r.2, lineNumber := acc.lineNumber + 1,
        errorCount := acc.errorCount, created := acc.created + 1 }
    | Except.error _ =>
      let fb : InsertLogEntry :=
        { id := none, lineNumber := acc.lineNumber,
          timestamp := Timestamp.ingestionTime, level := LogLevel.INFO,
          logger := none, message := line, stackTrace := none,
          fileName := fid }
      let r := createLogEntry acc.st fb (gen acc.created)
      { st := r.2, lineNumber := acc.lineNumber + 1,
        errorCount := acc.errorCount + 1, created := acc.created + 1 }

/-- Result of one `/api/upload` request: the store afterwards, whether the
HTTP response was the success JSON (`false` means the outer catch sent
status 500), and the reported counts. -/
structure UploadOutcome where
  store : MemStorage
  success : Bool
  linesProcessed : Nat
  errors : Nat

/-- The `/api/upload` handler of `src/server/routes.ts`. `fid` models the
`randomUUID()` assigned to the new `LogFile`; `decoded` is the outcome of
the pre-loop phase (`readFileSync`, `jschardet.detect`, `iconv.decode`) —
an `Except.error` there lands in the outer catch before any line is
processed; `unlinkOk` is whether the post-loop `fs.unlinkSync` succeeds
(its failure also lands in the outer catch, but only after the status
update already ran). -/
def handleUpload (s : MemStorage) (fid fname : List Char) (fsize : Nat)
    (decoded : Except (List Char) (List Char)) (unlinkOk : Bool)
    (gen : Nat → List Char) : UploadOutcome :=
  let r := createLogFile s fid fname fsize (some ("processing".toList))
  match decoded with
  | Except.error _ =>
    { store := r.2, success := false, linesProcessed := 0, errors := 0 }
  | Except.ok content =>
    let acc :=
      (splitNl content).foldl (stepLine gen fid)
        { st := r.2, lineNumber := 1, errorCount := 0, created := 0 }
    let s2 := updateLogFileStatus acc.st fid ("active".toList)
    { store := s2, success := unlinkOk,
      linesProcessed := acc.lineNumber - 1, errors := acc.errorCount }

/-- Is a parse result a structural record (one produced by a registered
timestamp-bearing pattern, as opposed to the continuation and fallback
branches, whose timestamp is the ingestion instant)? -/
def resStructural : Except (List Char) ParsedLogEntry → Bool
  | Except.ok e =>
    match e.timestamp with
    | Timestamp.fromString _ => true
    | Timestamp.ingestionTime => false
  | Except.error _ => false

/-- Year read off a constructed date string (its leading four digits). -/
def tsYear : Timestamp → Option Nat
  | Timestamp.fromString (a :: b :: c :: d :: _) =>
    if a.isDigit && b.isDigit && c.isDigit && d.isDigit then
      some ((a.toNat - 48) * 1000 + (b.toNat - 48) * 100 +
        (c.toNat - 48) * 10 + (d.toNat - 48))
    else none
  | _ => none

/-- Character test at an index. -/
def digitAt (t : List Char) (i : Nat) : Bool :=
  match t.get? i with
  | some c => c.isDigit
  | none => false

/-- Colon test at an index. -/
def colonAt (t : List Char) (i : Nat) : Bool := t.get? i == some ':'

/-- Modelled from the spec: the "bare-time form lacking a date" of
pattern family (c) — no such pattern exists under `src/`, so the shape is
taken from the spec's words: after trimming, the line begins with a bare
`HH:mm:ss` time (two digits, colon, two digits, colon, two digits) with
no preceding date. -/
def specBareTime (line : List Char) : Bool :=
  digitAt (jsTrim line) 0 && digitAt (jsTrim line) 1 &&
  colonAt (jsTrim line) 2 && digitAt (jsTrim line) 3 &&
  digitAt (jsTrim line) 4 && colonAt (jsTrim line) 5 &&
  digitAt (jsTrim line) 6 && digitAt (jsTrim line) 7

/-- A fixed UUID supply for concrete scenarios. -/
def gen0 : Nat → List Char := fun n => 'u' :: (Nat.toDigits 10 n)

/-- A sample stored entry for concrete scenarios. -/
def sampleEntry : LogEntry :=
  { id := "e1".toList, lineNumber := 1, timestamp := Timestamp.ingestionTime,
    level := LogLevel.ERROR, logger := none, message := "m".toList,
    stackTrace := none, fileName := "f1".toList,
    createdAt := Timestamp.ingestionTime }

/-- A second sample stored entry. -/
def sampleEntry2 : LogEntry :=
  { sampleEntry with
    id := "e2".toList
    lineNumber := 2
    level := LogLevel.WARN }

/-- A sample store holding two entries under file "f1". -/
def sampleStore : MemStorage :=
  { logEntries := fun f =>
      if f = "f1".toList then [sampleEntry, sampleEntry2] else []
    logFiles := fun _ => none }

/-- A sample insertion payload carrying a caller-supplied id and
empty-string optional fields. -/
def sampleIns : InsertLogEntry :=
  { id := some "caller-id".toList, lineNumber := 3,
    timestamp := Timestamp.ingestionTime, level := LogLevel.INFO,
    logger := some [], message := "hello".toList, stackTrace := some [],
    fileName := "f1".toList }


/-!  ### General lemmas about the embedded matchers  -/

/-- Every index consumed by `chompDigits` holds a digit. -/
lemma chompDigits_digitAt :
    ∀ (n : Nat) (l r : List Char), chompDigits n l = some r →
      ∀ i, i < n → digitAt l i = true := by
  intro n
  induction n with
  | zero => intro l r _ i hi; exact absurd hi (by omega)
  | succ m ih =>
    intro l r h i hi
    cases l with
    | nil => simp [chompDigits] at h
    | cons c t =>
      by_cases hc : c.isDigit
      · rw [chompDigits, if_pos hc] at h
        cases i with
        | zero => simp [digitAt, List.get?, hc]
        | succ j =>
          have hj := ih t r h j (by omega)
          simp only [digitAt, List.get?]
          exact hj
      · rw [chompDigits, if_neg hc] at h
        exact absurd h (by simp)

/-- `chompDigits` consumes exactly `n` characters. -/
lemma chompDigits_drop :
    ∀ (n : Nat) (l r : List Char), chompDigits n l = some r → r = l.drop n := by
  intro n
  induction n with
  | zero =>
    intro l r h
    simp [chompDigits] at h
    subst h
    rfl
  | succ m ih =>
    intro l r h
    cases l with
    | nil => simp [chompDigits] at h
    | cons c t =>
      by_cases hc : c.isDigit
      · rw [chompDigits, if_pos hc] at h
        simpa [List.drop] using ih t r h
      · rw [chompDigits, if_neg hc] at h
        exact absurd h (by simp)

/-- `chompChar` succeeds exactly on the expected head. -/
lemma chompChar_inv (a : Char) (l r : List Char)
    (h : chompChar a l = some r) : l = a :: r := by
  cases l with
  | nil => simp [chompChar] at h
  | cons c t =>
    by_cases hc : c == a
    · rw [chompChar, if_pos hc] at h
      have hca : c = a := by simpa using hc
      have ht : t = r := Option.some.inj h
      rw [hca, ht]
    · rw [chompChar, if_neg hc] at h
      exact absurd h (by simp)

/-- Head of a drop, as an indexed lookup. -/
lemma get0_drop : ∀ (n : Nat) (l : List Char), (l.drop n).get? 0 = l.get? n := by
  intro n
  induction n with
  | zero => intro l; rfl
  | succ m ih =>
    intro l
    cases l with
    | nil => simp
    | cons c t => exact ih t

/-- The head surviving `dropWhile jsWS` is not whitespace. -/
lemma dropWhile_head_false :
    ∀ (l : List Char) (c : Char) (r : List Char),
      l.dropWhile jsWS = c :: r → jsWS c = false := by
  intro l
  induction l with
  | nil => intro c r h; simp at h
  | cons a t ih =>
    intro c r h
    by_cases ha : jsWS a
    · rw [List.dropWhile_cons, if_pos ha] at h
      exact ih c r h
    · rw [List.dropWhile_cons, if_neg ha] at h
      have h1 : a = c := (List.cons.inj h).1
      have ha' : jsWS a = false := by simpa using ha
      rwa [h1] at ha'

/-- `dropWhile` cannot cross a trailing non-whitespace character. -/
lemma dropWhile_concat_keep :
    ∀ (A : List Char) (c : Char), jsWS c = false →
      ∃ B, (A ++ [c]).dropWhile jsWS = B ++ [c] := by
  intro A c hc
  induction A with
  | nil => exact ⟨[], by simp [List.dropWhile_cons, hc]⟩
  | cons a t ih =>
    by_cases ha : jsWS a
    · obtain ⟨B, hB⟩ := ih
      exact ⟨B, by simp [List.dropWhile_cons, ha, hB]⟩
    · exact ⟨a :: t, by simp [List.dropWhile_cons, ha]⟩

/-- A nonempty trimmed line starts with a non-whitespace character. -/
lemma jsTrim_head_false (l : List Char) (c : Char) (r : List Char)
    (h : jsTrim l = c :: r) : jsWS c = false := by
  unfold jsTrim at h
  cases hd : l.dropWhile jsWS with
  | nil => rw [hd] at h; simp at h
  | cons a t =>
    have ha : jsWS a = false := dropWhile_head_false l a t hd
    rw [hd, List.reverse_cons] at h
    obtain ⟨B, hB⟩ := dropWhile_concat_keep t.reverse a ha
    rw [hB, List.reverse_append] at h
    have h1 : a = c := (List.cons.inj (by simpa using h)).1
    rwa [h1] at ha

/-- After trimming, there is no leading whitespace run. -/
lemma wsLen_jsTrim (l : List Char) : wsLen (jsTrim l) = 0 := by
  cases h : jsTrim l with
  | nil => simp [wsLen]
  | cons c r =>
    have hc := jsTrim_head_false l c r h
    simp [wsLen, List.takeWhile_cons, hc]

/-- The continuation pattern `TOMCAT_PATTERNS[2]` demands at least one
leading whitespace character, but `parseLogLine` trims the line before
matching — so on trimmed input the pattern can never fire and the
stack-trace branch of the parser is unreachable. -/
lemma matchP2_jsTrim (l : List Char) : matchP2 (jsTrim l) = false := by
  unfold matchP2
  rw [wsLen_jsTrim]
  rfl

/-- On any line whose trim is nonempty, `parseLogLine` returns normally
with a single entry. -/
lemma parseTotal (line : List Char) (n : Nat) (h : jsTrim line ≠ []) :
    ∃ e, parseLogLine line n = Except.ok e := by
  unfold parseLogLine
  rw [if_neg h]
  cases h0 : matchP0 (jsTrim line) with
  | some v =>
    obtain ⟨ts, lv, msg⟩ := v
    exact ⟨_, rfl⟩
  | none =>
    cases h1 : matchP1 (jsTrim line) with
    | some v =>
      obtain ⟨ts, lv, lg, msg⟩ := v
      exact ⟨_, rfl⟩
    | none =>
      cases h2 : matchP2 (jsTrim line) with
      | true => exact ⟨_, rfl⟩
      | false => exact ⟨_, rfl⟩

/-- `v || null` never stores an empty string. -/
lemma jsOrNull_ne (x : Option (List Char)) : jsOrNull x ≠ some [] := by
  cases x with
  | none => simp [jsOrNull]
  | some s =>
    by_cases h : s = [] <;> simp [jsOrNull, h]

/-- The per-line loop never touches the file-metadata map. -/
lemma stepLine_logFiles (gen : Nat → List Char) (fid : List Char)
    (acc : IngestAcc) (line : List Char) :
    (stepLine gen fid acc line).st.logFiles = acc.st.logFiles := by
  unfold stepLine
  split
  · rfl
  · split <;> rfl

/-- Folding the per-line loop never touches the file-metadata map. -/
lemma foldl_logFiles (gen : Nat → List Char) (fid : List Char) :
    ∀ (ls : List (List Char)) (a : IngestAcc),
      (ls.foldl (stepLine gen fid) a).st.logFiles = a.st.logFiles := by
  intro ls
  induction ls with
  | nil => intro a; rfl
  | cons x t ih =>
    intro a
    rw [List.foldl_cons]
    exact (ih (stepLine gen fid a x)).trans (stepLine_logFiles gen fid a x)

/-- No registered structural pattern accepts a bare-time line: pattern 0
needs a digit where the shape has its first colon, pattern 1 needs a dot
there, so such a line always lands in a timestamp-less branch. -/
lemma bareTimeFallback (line : List Char) (n : Nat)
    (hb : specBareTime line = true) :
    resStructural (parseLogLine line n) = false := by
  have hcon : digitAt (jsTrim line) 0 = true ∧ colonAt (jsTrim line) 2 = true := by
    simp only [specBareTime, Bool.and_eq_true] at hb
    exact ⟨hb.1.1.1.1.1.1.1, hb.1.1.1.1.1.2⟩
  have h0 := hcon.1
  have h2 : (jsTrim line).get? 2 = some ':' := by
    have := hcon.2
    simpa [colonAt] using this
  have hne : jsTrim line ≠ [] := by
    intro h
    rw [h] at h0
    simp [digitAt] at h0
  have hd4 : chompDigits 4 (jsTrim line) = none := by
    cases hc : chompDigits 4 (jsTrim line) with
    | none => rfl
    | some r =>
      have hdig := chompDigits_digitAt 4 (jsTrim line) r hc 2 (by omega)
      rw [digitAt, h2] at hdig
      exact absurd hdig (by decide)
  have hm0 : matchP0 (jsTrim line) = none := by
    have hts : matchTs0 (jsTrim line) = none := by
      simp [matchTs0, ts0Steps, runSteps, hd4]
    rw [matchP0, hts]
  have hm1 : matchP1 (jsTrim line) = none := by
    have hts : matchTs1 (jsTrim line) = none := by
      cases hc2 : chompDigits 2 (jsTrim line) with
      | none => simp [matchTs1, ts1Steps, runSteps, hc2]
      | some r =>
        cases hdot : chompChar '.' r with
        | none => simp [matchTs1, ts1Steps, runSteps, hc2, hdot]
        | some r2 =>
          exfalso
          have hr : r = (jsTrim line).drop 2 := chompDigits_drop 2 _ r hc2
          have hcons : (jsTrim line).drop 2 = '.' :: r2 := by
            rw [← hr]; exact chompChar_inv '.' r r2 hdot
          have : (jsTrim line).get? 2 = some '.' := by
            rw [← get0_drop 2 (jsTrim line), hcons]; rfl
          rw [h2] at this
          exact absurd (Option.some.inj this) (by decide)
    rw [matchP1, hts]
  unfold parseLogLine
  rw [if_neg hne, hm0, hm1]
  cases h2p : matchP2 (jsTrim line) with
  | true => rfl
  | false => rfl


/-!  ### Claim theorems  -/

/-- The three-line continuation scenario of the claim (header line plus
two stack frames). -/
def c1content : List Char :=
  ("2024-01-01 10:00:00.000 ERROR [svc] boom" ++ "\n" ++
   "  at foo.bar(Baz.java:10)" ++ "\n" ++
   "  at qux.quux(Quux.java:20)").toList

/-- C1 (code bug evidence): ingesting the claim's three-line input stores
three separate records, all fallback INFO entries with no stack trace —
not one ERROR record with the two frames merged. The header line fails
`TOMCAT_PATTERNS[0]` (which demands a comma millisecond separator and the
literal token `main`, with no bracketed-logger support), and the frame
lines can never match the continuation pattern because `parseLogLine`
trims the line first while the pattern requires leading whitespace
(`matchP2_jsTrim`). -/
theorem claim_C1_failing_eval :
    ((handleUpload emptyStorage ("f1".toList) ("log.txt".toList) 100
        (Except.ok c1content) true gen0).store.logEntries
          ("f1".toList)).map (fun e => (e.level, e.stackTrace, e.message)) =
      [(LogLevel.INFO, none, ("2024-01-01 10:00:00.000 ERROR [svc] boom").toList),
       (LogLevel.INFO, none, ("at foo.bar(Baz.java:10)").toList),
       (LogLevel.INFO, none, ("at qux.quux(Quux.java:20)").toList)] := by
  decide

/-- C2: for every line whose trim is non-blank, `parseLogLine` returns
normally with exactly one outcome — never zero, never more than one, and
never an exception. -/
theorem claim_C2_parse_total (line : List Char) (n : Nat)
    (h : jsTrim line ≠ []) :
    ∃! e, parseLogLine line n = Except.ok e := by
  obtain ⟨e, he⟩ := parseTotal line n h
  refine ⟨e, he, ?_⟩
  intro y hy
  rw [he] at hy
  exact (Except.ok.inj hy).symm

/-- Witness for C2 at a concrete non-blank line. -/
theorem claim_C2_witness :
    jsTrim ("hello world".toList) ≠ [] ∧
      ∃! e, parseLogLine ("hello world".toList) 7 = Except.ok e :=
  ⟨by decide, claim_C2_parse_total ("hello world".toList) 7 (by decide)⟩

/-- C3 (counterexample): no line of the spec's bare-time shape is ever
parsed into a structural record, refuting coverage family (c) of the
claim. -/
theorem claim_C3_counterexample :
    ¬ ∃ (line : List Char) (n : Nat),
        specBareTime line = true ∧
          resStructural (parseLogLine line n) = true := by
  rintro ⟨line, n, hb, hs⟩
  rw [bareTimeFallback line n hb] at hs
  exact Bool.false_ne_true hs

/-- C3 (amended): the registered patterns cover (a) the ISO-like shape
only in the restricted form `YYYY-MM-DD HH:mm:ss,SSS` followed by the
literal token `main` and the level (comma separator only, logger always
recorded as `main`, no bracketed logger), and (b) the locale shape
`DD.MM.YY HH:mm:ss:SSS - LEVEL - LOGGER - MESSAGE` with two-digit year
read as 2000+YY; no bare-time pattern is registered — a bare-time line
never yields a structural record and falls through to the INFO fallback,
as the third and fourth conjuncts show. -/
theorem claim_C3_amended :
    (parseLogLine ("2024-01-01 10:00:00,000 main ERROR boom".toList) 1 =
      Except.ok
        { lineNumber := 1
          timestamp := Timestamp.fromString ("2024-01-01 10:00:00.000".toList)
          level := LogLevel.ERROR
          logger := some ("main".toList)
          message := "boom".toList
          stackTrace := none }) ∧
    (parseLogLine ("01.02.24 10:00:00:000 - WARN - svcA - disk low".toList) 1 =
      Except.ok
        { lineNumber := 1
          timestamp := Timestamp.fromString ("2024-02-01 10:00:00:000".toList)
          level := LogLevel.WARN
          logger := some ("svcA".toList)
          message := "disk low".toList
          stackTrace := none }) ∧
    (parseLogLine ("10:15:30.123 INFO started".toList) 1 =
      Except.ok
        { lineNumber := 1
          timestamp := Timestamp.ingestionTime
          level := LogLevel.INFO
          logger := none
          message := "10:15:30.123 INFO started".toList
          stackTrace := none }) ∧
    (∀ line n, specBareTime line = true →
      resStructural (parseLogLine line n) = false) :=
  ⟨by rfl, by rfl, by rfl, bareTimeFallback⟩

/-- Witness for the amended C3 at a concrete bare-time line. -/
theorem claim_C3_witness :
    specBareTime ("10:15:30.123 INFO started".toList) = true ∧
      resStructural
        (parseLogLine ("10:15:30.123 INFO started".toList) 1) = false :=
  ⟨by decide,
    claim_C3_amended.2.2.2 ("10:15:30.123 INFO started".toList) 1 (by decide)⟩

/-- C4: the locale-format line parses into a structural record with level
WARN, logger `svcA`, message `disk low`, and a timestamp string whose
two-digit year `24` was rebuilt as `2024`. -/
theorem claim_C4_locale :
    parseLogLine ("01.02.24 10:00:00:000 - WARN - svcA - disk low".toList) 1 =
      Except.ok
        { lineNumber := 1
          timestamp := Timestamp.fromString ("2024-02-01 10:00:00:000".toList)
          level := LogLevel.WARN
          logger := some ("svcA".toList)
          message := "disk low".toList
          stackTrace := none } ∧
    tsYear (Timestamp.fromString ("2024-02-01 10:00:00:000".toList)) =
      some 2024 :=
  ⟨by rfl, by decide⟩

/-- C5: `getLogEntries` returns the slice in insertion order, a prefix
read of `N` then a read of `M` at offset `N` concatenate to the prefix
read of `N + M`, and an out-of-range offset yields the empty list. -/
theorem claim_C5_read_slice (s : MemStorage) (f : List Char)
    (N M lim off : Nat) :
    (getLogEntries s f N 0 ++ getLogEntries s f M N =
      getLogEntries s f (N + M) 0) ∧
    ((s.logEntries f).length ≤ off → getLogEntries s f lim off = []) := by
  constructor
  · unfold getLogEntries
    simp only [List.drop_zero]
    exact (List.take_add (s.logEntries f) N M).symm
  · intro h
    unfold getLogEntries
    rw [List.drop_eq_nil_of_le h]
    simp

/-- Witness for C5 on a concrete store. -/
theorem claim_C5_witness :
    (getLogEntries sampleStore ("f1".toList) 1 0 ++
        getLogEntries sampleStore ("f1".toList) 1 1 =
      getLogEntries sampleStore ("f1".toList) 2 0) ∧
    getLogEntries sampleStore ("f1".toList) 5 7 = [] :=
  ⟨(claim_C5_read_slice sampleStore ("f1".toList) 1 1 5 7).1,
    (claim_C5_read_slice sampleStore ("f1".toList) 1 1 5 7).2 (by decide)⟩

/-- C6 (counterexample): with the decode succeeding but the post-loop
temp-file unlink failing, the upload fails as a whole (the outer catch
answers 500), yet the file has already been marked `active` — an
I/O-level fault outside the per-line loop after which the file does not
remain `processing`. -/
theorem claim_C6_counterexample :
    (handleUpload emptyStorage ("f1".toList) ("a.log".toList) 1
        (Except.ok ("x".toList)) false gen0).success = false ∧
      fileStatus
        (handleUpload emptyStorage ("f1".toList) ("a.log".toList) 1
          (Except.ok ("x".toList)) false gen0).store ("f1".toList) =
        some ("active".toList) :=
  ⟨rfl, by decide⟩

/-- C6 (amended): when decoding succeeds, the file is marked `active`
after all lines are consumed regardless of how many fell into the
fallback path; a decode-level or I/O-level fault before the per-line loop
fails the upload as a whole and the file never reaches `active` (its
status remains `processing`); a fault in the post-loop temp-file cleanup
also fails the upload as a whole, but only after the file has already
been marked `active`. -/
theorem claim_C6_amended (s : MemStorage) (fid fname : List Char)
    (fsize : Nat) (gen : Nat → List Char) (uOk : Bool) :
    (∀ content,
      fileStatus
          (handleUpload s fid fname fsize (Except.ok content) uOk gen).store
          fid = some ("active".toList) ∧
        (handleUpload s fid fname fsize (Except.ok content) uOk gen).success =
          uOk) ∧
    (∀ err,
      fileStatus
          (handleUpload s fid fname fsize (Except.error err) uOk gen).store
          fid = some ("processing".toList) ∧
        (handleUpload s fid fname fsize (Except.error err) uOk gen).success =
          false) := by
  constructor
  · intro content
    constructor
    · have hred :
          (handleUpload s fid fname fsize (Except.ok content) uOk gen).store =
            updateLogFileStatus
              (((splitNl content).foldl (stepLine gen fid)
                { st := (createLogFile s fid fname fsize
                    (some ("processing".toList))).2,
                  lineNumber := 1, errorCount := 0, created := 0 })).st
              fid ("active".toList) := rfl
      rw [hred]
      have hbase :
          (((splitNl content).foldl (stepLine gen fid)
            { st := (createLogFile s fid fname fsize
                (some ("processing".toList))).2,
              lineNumber := 1, errorCount := 0, created := 0 })).st.logFiles fid =
            some ((createLogFile s fid fname fsize
              (some ("processing".toList))).1) := by
        rw [foldl_logFiles]
        simp [createLogFile]
      rw [updateLogFileStatus, hbase]
      simp [fileStatus]
    · rfl
  · intro err
    constructor
    · have hred :
          (handleUpload s fid fname fsize (Except.error err) uOk gen).store =
            (createLogFile s fid fname fsize
              (some ("processing".toList))).2 := rfl
      rw [hred]
      have hne : ("processing".toList : List Char) ≠ [] := by decide
      simp [fileStatus, createLogFile, hne]
    · rfl

/-- C8: broadcast targets exactly the connections subscribed to the file
id — the delivery list is the subscribed sublist, flagged delivered
exactly when the recipient socket is still open (a closed recipient's
frame is dropped without raising) — and the outcome for any recipient is
independent of the other recipients in the list, so one dead connection
never prevents delivery to the rest. -/
theorem claim_C8_broadcast (clients : List WsClient) (fileName : List Char)
    (entry : LogEntry) :
    (broadcast clients fileName entry =
      (clients.filter (fun c => c.subscribedFile == some fileName)).map
        (fun c => (c, c.isOpen))) ∧
    (∀ pre c post,
      broadcast (pre ++ c :: post) fileName entry =
        broadcast pre fileName entry ++ broadcast [c] fileName entry ++
          broadcast post fileName entry) := by
  constructor
  · induction clients with
    | nil => rfl
    | cons a t ih =>
      simp only [broadcast] at ih ⊢
      rw [List.filterMap_cons, List.filter_cons]
      by_cases ha : a.subscribedFile = some fileName
      · have hb : (a.subscribedFile == some fileName) = true := by simpa using ha
        rw [hb]
        exact congrArg (List.cons (a, a.isOpen)) ih
      · have hb : (a.subscribedFile == some fileName) = false :=
          beq_eq_false_iff_ne.mpr ha
        rw [hb]
        exact ih
  · intro pre c post
    simp only [broadcast]
    rw [show pre ++ c :: post = pre ++ [c] ++ post by simp]
    rw [List.filterMap_append, List.filterMap_append]

/-- C9: `parseLogLine` raises the `Empty line` error exactly when the
input trims to the empty string, and the ingestion loop of the upload
handler skips such blank lines before ever invoking the parser (a blank
line leaves the loop state untouched). -/
theorem claim_C9_empty_line (line : List Char) (n : Nat) :
    (parseLogLine line n = Except.error ("Empty line".toList) ↔
      jsTrim line = []) ∧
    (∀ (gen : Nat → List Char) (fid : List Char) (acc : IngestAcc),
      jsTrim line = [] → stepLine gen fid acc line = acc) := by
  constructor
  · constructor
    · intro h
      by_contra hne
      obtain ⟨e, he⟩ := parseTotal line n hne
      rw [he] at h
      exact Except.noConfusion h
    · intro h
      unfold parseLogLine
      rw [if_pos h]
  · intro gen fid acc h
    unfold stepLine
    rw [if_pos h]

/-- Witness for C9: a whitespace-only line is skipped by the loop. -/
theorem claim_C9_witness :
    stepLine gen0 ("f1".toList)
        { st := emptyStorage, lineNumber := 1, errorCount := 0, created := 0 }
        ("   ".toList) =
      { st := emptyStorage, lineNumber := 1, errorCount := 0, created := 0 } :=
  (claim_C9_empty_line ("   ".toList) 1).2 gen0 ("f1".toList)
    { st := emptyStorage, lineNumber := 1, errorCount := 0, created := 0 }
    (by decide)

/-- C10: every stored record gets the freshly generated UUID as its id,
overriding whatever id the caller supplied; the optional `logger` and
`stackTrace` fields are normalized through `v || null`, so the created
record never carries an empty string there, and the store-wide invariant
that no stored record has an empty-string logger or stack trace is
preserved by `createLogEntry`. -/
theorem claim_C10_create_entry (s : MemStorage) (ins : InsertLogEntry)
    (g : List Char) :
    (createLogEntry s ins g).1.id = g ∧
    (createLogEntry s ins g).1.logger ≠ some [] ∧
    (createLogEntry s ins g).1.stackTrace ≠ some [] ∧
    ((∀ f e, e ∈ s.logEntries f →
        e.logger ≠ some ([] : List Char) ∧ e.stackTrace ≠ some ([] : List Char)) →
      ∀ f e, e ∈ (createLogEntry s ins g).2.logEntries f →
        e.logger ≠ some ([] : List Char) ∧ e.stackTrace ≠ some ([] : List Char)) := by
  refine ⟨rfl, jsOrNull_ne ins.logger, jsOrNull_ne ins.stackTrace, ?_⟩
  intro hinv f e he
  simp only [createLogEntry] at he
  by_cases hf : f = ins.fileName
  · rw [if_pos hf] at he
    rcases List.mem_append.mp he with hold | hnew
    · exact hinv f e hold
    · have : e = _ := List.mem_singleton.mp hnew
      subst this
      exact ⟨jsOrNull_ne ins.logger, jsOrNull_ne ins.stackTrace⟩
  · rw [if_neg hf] at he
    exact hinv f e he

/-- Witness for C10: a creation on the empty store, with a caller-supplied
id and empty-string optional fields, stores the fresh id and null fields. -/
theorem claim_C10_witness :
    (createLogEntry emptyStorage sampleIns ("g1".toList)).1.id = "g1".toList ∧
      ∀ f e, e ∈ (createLogEntry emptyStorage sampleIns
          ("g1".toList)).2.logEntries f →
        e.logger ≠ some ([] : List Char) ∧ e.stackTrace ≠ some ([] : List Char) :=
  ⟨(claim_C10_create_entry emptyStorage sampleIns ("g1".toList)).1,
    (claim_C10_create_entry emptyStorage sampleIns ("g1".toList)).2.2.2
      (fun _f e he => absurd he (List.not_mem_nil e))⟩


/-- C7: clearing a file truncates its record sequence to empty while the
file-metadata map (hence `status` and `fileName`) is untouched, so the
statistics immediately afterwards are all zero. -/
theorem claim_C7_clear_frame (s : MemStorage) (f : List Char) :
    (clearLogEntries s f).logFiles = s.logFiles ∧
    (clearLogEntries s f).logEntries f = [] ∧
    getLogStatistics (clearLogEntries s f) f =
      { total := 0, errors := 0, warnings := 0 } := by
  refine ⟨rfl, ?_, ?_⟩
  · simp [clearLogEntries]
  · simp [getLogStatistics, clearLogEntries]

end LogMon



